import Mathlib

/-!
Shallow embedding of `src/MidiParser.cpp` (rasuls/MidiParser).

The byte source is modelled as a `List Nat` of remaining bytes (every read
masks with `% 256`, as the C++ reads each byte into a `uint8_t`).  The
one-byte backtrack performed by `file.seekg(-1, cur)` is modelled by
re-prepending the just-read byte.  Stream exhaustion (a C++ `read` past the
end of the file) aborts the current track's decode.
-/

namespace Midi

/-- Mirrors the `Note` struct of `MidiParser.cpp`: a note number together
with an on/off flag (the C++ field is named `on`, a Lean keyword). -/
structure Note where
  noteNumber : Nat
  isOn : Bool
deriving DecidableEq, Repr

/-- One decoded event per reporting step of `MidiFileParser::doWork`
(the fields are exactly the values the C++ code extracts in each
`switch` case). -/
inductive Event where
  | noteOffE (channel noteNumber velocity delta : Nat)
  | noteOnE (channel noteNumber velocity delta : Nat)
  | noteAfterTouchE (channel noteNumber amount : Nat)
  | controllerE (channel controllerType value : Nat)
  | programChangeE (channel programNumber : Nat)
  | channelAfterTouchE (channel amount : Nat)
  | pitchBendE (channel valueLSB valueMSB : Nat)
  | sequenceNumberE (msb lsb : Nat)
  | textEventE (text : List Nat)
  | copyrightNoticeE (text : List Nat)
  | sequenceTrackNameE (text : List Nat)
  | instrumentNameE (text : List Nat)
  | lyricsE (text : List Nat)
  | markerE (text : List Nat)
  | cuePointE (text : List Nat)
  | midiChannelPrefixE (channel : Nat)
  | endOfTrackE
  | setTempoE (mspm bpm : Nat)
  | smpteOffsetE (hour min sec fr subFr : Nat)
  | timeSignatureE (number denom metro thirtySecondNotes : Nat)
  | keySignatureE (key scale : Nat)
  | sequencerSpecificE (text : List Nat)
  | sysexBeginE (text : List Nat)
  | sysexEndE (text : List Nat)
  | statusByteErrorE (status : Nat)
deriving DecidableEq, Repr

/-- Mirrors `MidiFileParser::isMSBHigh`: tests bit 7 of a byte. -/
def isMSBHigh (input : Nat) : Bool :=
  (input &&& 0x80) != 0

/-- Reads one byte from the stream (a C++ `read` of one `char` into a
`uint8_t`), failing when the source is exhausted. -/
def readByte : List Nat → Option (Nat × List Nat)
  | [] => none
  | b :: rest => some (b % 256, rest)

/-- Mirrors the `while (in_progress)` loop of
`MidiFileParser::readVariableLengthData`; `result` is a `uint32_t`, so the
left shift wraps modulo `2 ^ 32`. -/
def vlqLoop (result : Nat) : List Nat → Option (Nat × List Nat)
  | [] => none
  | b :: rest =>
    let byte := b % 256
    let r := ((result <<< 7) % 4294967296) ||| (byte &&& 0x7F)
    if isMSBHigh byte then vlqLoop r rest else some (r, rest)

/-- Mirrors `MidiFileParser::readVariableLengthData`: decode one
variable-length quantity from the front of the stream. -/
def readVariableLengthData (input : List Nat) : Option (Nat × List Nat) :=
  match input with
  | [] => none
  | b :: rest =>
    let byte := b % 256
    let r := byte &&& 0x7F
    if isMSBHigh byte then vlqLoop r rest else some (r, rest)

/-- Mirrors `MidiFileParser::readDefinedLengthData`: read exactly `length`
bytes and return them (the C++ accumulates them into a `string`). -/
def readDefinedLengthData : Nat → List Nat → Option (List Nat × List Nat)
  | 0, input => some ([], input)
  | n + 1, input =>
    match readByte input with
    | none => none
    | some (b, rest) =>
      match readDefinedLengthData n rest with
      | none => none
      | some (s, rest2) => some (b :: s, rest2)

/-- Mirrors `MidiFileParser::swapEndianess32`. -/
def swapEndianess32 (input : Nat) : Nat :=
  ((input >>> 24) &&& 0x000000ff) ||| ((input >>> 8) &&& 0x0000ff00) |||
    ((input <<< 8) &&& 0x00ff0000) ||| ((input <<< 24) &&& 0xff000000)

/-- Mirrors `MidiFileParser::swapEndianess16`. -/
def swapEndianess16 (input : Nat) : Nat :=
  ((input >>> 8) &&& 0x00ff) ||| ((input <<< 8) &&& 0xff00)

/-- A raw little-endian 32-bit load of four stream bytes, as performed by
`file.read` into a `uint32_t` field on a little-endian host. -/
def le32 (b0 b1 b2 b3 : Nat) : Nat :=
  (b0 % 256) ||| ((b1 % 256) <<< 8) ||| ((b2 % 256) <<< 16) ||| ((b3 % 256) <<< 24)

/-- A raw little-endian 16-bit load of two stream bytes. -/
def le16 (b0 b1 : Nat) : Nat :=
  (b0 % 256) ||| ((b1 % 256) <<< 8)

/-- Mirrors `MidiFileParser::Header`. -/
structure Header where
  chunk_type : Nat
  length : Nat
  format : Nat
  ntrks : Nat
  division : Nat
deriving DecidableEq, Repr

/-- Mirrors `MidiFileParser::Track` (a track chunk's tag and declared
length). -/
structure Track where
  chunk_type : Nat
  length : Nat
deriving DecidableEq, Repr

/-- Mirrors `MidiFileParser::acquireHeaderData`: read the fixed 14 header
bytes and byte-swap each field. -/
def acquireHeaderData : List Nat → Option (Header × List Nat)
  | b0 :: b1 :: b2 :: b3 :: b4 :: b5 :: b6 :: b7 :: b8 :: b9 ::
      b10 :: b11 :: b12 :: b13 :: rest =>
    some ({ chunk_type := swapEndianess32 (le32 b0 b1 b2 b3)
            length := swapEndianess32 (le32 b4 b5 b6 b7)
            format := swapEndianess16 (le16 b8 b9)
            ntrks := swapEndianess16 (le16 b10 b11)
            division := swapEndianess16 (le16 b12 b13) }, rest)
  | _ => none

/-- Mirrors the `file.read((char *)&track_chunk, sizeof(track_chunk))` of
`doWork` followed by the two endianness swaps: read the 8-byte track chunk
header. -/
def readTrackChunk : List Nat → Option (Track × List Nat)
  | b0 :: b1 :: b2 :: b3 :: b4 :: b5 :: b6 :: b7 :: rest =>
    some ({ chunk_type := swapEndianess32 (le32 b0 b1 b2 b3)
            length := swapEndianess32 (le32 b4 b5 b6 b7) }, rest)
  | _ => none

/-- Mirrors lines 221–228 of `doWork`: a candidate status byte below `0x80`
is data, so the previous status is substituted and the byte is pushed back
(`file.seekg(-1, cur)`). -/
def resolveStatus (prevStatus candidate : Nat) (rest : List Nat) : Nat × List Nat :=
  if candidate < 0x80 then (prevStatus, candidate :: rest) else (candidate, rest)

/-- Result of decoding a single `(delta-time, event)` iteration of the
per-track `while` loop. -/
inductive StepResult where
  | exhausted
  | trackDone (prevStatus : Nat) (rest : List Nat) (events : List Event)
  | cont (prevStatus : Nat) (rest : List Nat) (events : List Event) (notes : List Note)
deriving DecidableEq, Repr

/-- Mirrors the `sequenceNumber` case of the meta-event type switch:
two bytes are read with `file.get()`. -/
def metaSequenceNumber (status : Nat) (input : List Nat) : StepResult :=
  match readByte input with
  | none => .exhausted
  | some (msb, i1) =>
    match readByte i1 with
    | none => .exhausted
    | some (lsb, i2) => .cont status i2 [.sequenceNumberE msb lsb] []

/-- Mirrors the text-like meta cases (`textEvent` … `cuePoint` and
`sequencerSpecific`), which all call `readDefinedLengthData` with the
declared length and report via the given constructor. -/
def metaTextCase (status : Nat) (mk : List Nat → Event) (length : Nat)
    (input : List Nat) : StepResult :=
  match readDefinedLengthData length input with
  | none => .exhausted
  | some (text, i1) => .cont status i1 [mk text] []

/-- Mirrors the `midiChannelPrefix` case: one payload byte. -/
def metaChannelPrefix (status : Nat) (input : List Nat) : StepResult :=
  match readByte input with
  | none => .exhausted
  | some (channel, i1) => .cont status i1 [.midiChannelPrefixE channel] []

/-- Mirrors the `setTempo` case: three payload bytes are read, but the
value is combined from `byte0` and `byte1` only, with `byte0` reused in
place of `byte2` (`mspm = (byte0 << 16) | (byte1 << 8) | (byte0)`). -/
def metaSetTempo (status : Nat) (input : List Nat) : StepResult :=
  match readByte input with
  | none => .exhausted
  | some (byte0, i1) =>
    match readByte i1 with
    | none => .exhausted
    | some (byte1, i2) =>
      match readByte i2 with
      | none => .exhausted
      | some (_byte2, i3) =>
        let mspm := (byte0 <<< 16) ||| (byte1 <<< 8) ||| byte0
        let bpm := 60000000 / mspm
        .cont status i3 [.setTempoE mspm bpm] []

/-- Mirrors the `smpteOffset` case: five payload bytes. -/
def metaSmpteOffset (status : Nat) (input : List Nat) : StepResult :=
  match readByte input with
  | none => .exhausted
  | some (hour, i1) =>
    match readByte i1 with
    | none => .exhausted
    | some (minute, i2) =>
      match readByte i2 with
      | none => .exhausted
      | some (sec, i3) =>
        match readByte i3 with
        | none => .exhausted
        | some (fr, i4) =>
          match readByte i4 with
          | none => .exhausted
          | some (subFr, i5) => .cont status i5 [.smpteOffsetE hour minute sec fr subFr] []

/-- Mirrors the `timeSignature` case: four payload bytes. -/
def metaTimeSignature (status : Nat) (input : List Nat) : StepResult :=
  match readByte input with
  | none => .exhausted
  | some (number, i1) =>
    match readByte i1 with
    | none => .exhausted
    | some (denom, i2) =>
      match readByte i2 with
      | none => .exhausted
      | some (metro, i3) =>
        match readByte i3 with
        | none => .exhausted
        | some (thirtysecondnotes, i4) =>
          .cont status i4 [.timeSignatureE number denom metro thirtysecondnotes] []

/-- Mirrors the `keySignature` case: two payload bytes. -/
def metaKeySignature (status : Nat) (input : List Nat) : StepResult :=
  match readByte input with
  | none => .exhausted
  | some (key, i1) =>
    match readByte i1 with
    | none => .exhausted
    | some (scale, i2) => .cont status i2 [.keySignatureE key scale] []

/-- Mirrors the inner `switch (type)` of the `0xFF` branch (lines 316–424
of `MidiParser.cpp`).  The switch has no default case, so an unrecognized
meta type consumes no payload bytes and reports nothing. -/
def metaTypeSwitch (status t length : Nat) (input : List Nat) : StepResult :=
  match t with
  | 0x00 => metaSequenceNumber status input
  | 0x01 => metaTextCase status .textEventE length input
  | 0x02 => metaTextCase status .copyrightNoticeE length input
  | 0x03 => metaTextCase status .sequenceTrackNameE length input
  | 0x04 => metaTextCase status .instrumentNameE length input
  | 0x05 => metaTextCase status .lyricsE length input
  | 0x06 => metaTextCase status .markerE length input
  | 0x07 => metaTextCase status .cuePointE length input
  | 0x20 => metaChannelPrefix status input
  | 0x2F => .trackDone status input [.endOfTrackE]
  | 0x51 => metaSetTempo status input
  | 0x54 => metaSmpteOffset status input
  | 0x58 => metaTimeSignature status input
  | 0x59 => metaKeySignature status input
  | 0x7F => metaTextCase status .sequencerSpecificE length input
  | _ => .cont status input [] []

/-- Mirrors the two sysex branches (`0xF0` and `0xF7`): a throwaway type
byte, a varlen length and that many discarded payload bytes. -/
def sysexCase (status : Nat) (mk : List Nat → Event) (input : List Nat) : StepResult :=
  match readByte input with
  | none => .exhausted
  | some (_, i1) =>
    match readVariableLengthData i1 with
    | none => .exhausted
    | some (length, i2) =>
      match readDefinedLengthData length i2 with
      | none => .exhausted
      | some (text, i3) => .cont status i3 [mk text] []

/-- Mirrors the `metaEvent` case of the status switch (lines 305–446 of
`MidiParser.cpp`): `prevStatus` has already been set to `status`, then the
full status byte selects meta (`0xFF`), sysex (`0xF0`/`0xF7`) or the
status-byte-error report, which consumes nothing. -/
def metaDispatch (status delta : Nat) (input : List Nat) : StepResult :=
  match status with
  | 0xFF =>
    (match readByte input with
     | none => .exhausted
     | some (t, i1) =>
       match readVariableLengthData i1 with
       | none => .exhausted
       | some (length, i2) => metaTypeSwitch status t length i2)
  | 0xF0 => sysexCase status .sysexBeginE input
  | 0xF7 => sysexCase status .sysexEndE input
  | _ => .cont status input [.statusByteErrorE status] []

/-- Mirrors the two-payload-byte channel-voice cases (`noteOff`, `noteOn`,
`noteAfterTouch`, `controller`, `pitchBend`): read two bytes, report via
`mk`, and append `notes` (non-empty only for the note cases). -/
def channelVoice2 (status : Nat) (mk : Nat → Nat → Event) (notes : Nat → List Note)
    (input : List Nat) : StepResult :=
  match readByte input with
  | none => .exhausted
  | some (a, i1) =>
    match readByte i1 with
    | none => .exhausted
    | some (b, i2) => .cont status i2 [mk a b] (notes a)

/-- Mirrors the one-payload-byte channel-voice cases (`programChange`,
`channelAfterTouch`). -/
def channelVoice1 (status : Nat) (mk : Nat → Event) (input : List Nat) : StepResult :=
  match readByte input with
  | none => .exhausted
  | some (a, i1) => .cont status i1 [mk a] []

/-- Mirrors the `switch (statusUpper4Bits)` of `doWork`: each channel-voice
case records the status as the new running status, reads its fixed payload
and reports an event; the note cases additionally append to the track's
note vector.  A high nibble matching no case (possible only for a
substituted running status below `0x80`) does nothing at all. -/
def dispatch (prevStatus status delta : Nat) (input : List Nat) : StepResult :=
  match status >>> 4 with
  | 0x8 =>
    channelVoice2 status (fun noteNumber velocity => .noteOffE (status &&& 0x0F) noteNumber velocity delta)
      (fun noteNumber => [{ noteNumber := noteNumber, isOn := false }]) input
  | 0x9 =>
    channelVoice2 status (fun noteNumber velocity => .noteOnE (status &&& 0x0F) noteNumber velocity delta)
      (fun noteNumber => [{ noteNumber := noteNumber, isOn := true }]) input
  | 0xA =>
    channelVoice2 status (fun noteNumber amount => .noteAfterTouchE (status &&& 0x0F) noteNumber amount)
      (fun _ => []) input
  | 0xB =>
    channelVoice2 status (fun controllerType value => .controllerE (status &&& 0x0F) controllerType value)
      (fun _ => []) input
  | 0xC => channelVoice1 status (fun programNumber => .programChangeE (status &&& 0x0F) programNumber) input
  | 0xD => channelVoice1 status (fun amount => .channelAfterTouchE (status &&& 0x0F) amount) input
  | 0xE =>
    channelVoice2 status (fun valueLSB valueMSB => .pitchBendE (status &&& 0x0F) valueLSB valueMSB)
      (fun _ => []) input
  | 0xF => metaDispatch status delta input
  | _ => .cont prevStatus input [] []

/-- One iteration of the per-track `while (!reachedEndOfTrack)` loop of
`doWork`: read a delta-time, read and resolve the status byte, then
dispatch on its high nibble. -/
def step (prevStatus : Nat) (input : List Nat) : StepResult :=
  match readVariableLengthData input with
  | none => .exhausted
  | some (delta, i1) =>
    match readByte i1 with
    | none => .exhausted
    | some (candidate, i2) =>
      let resolved := resolveStatus prevStatus candidate i2
      dispatch prevStatus resolved.1 delta resolved.2

/-- Result of decoding one track: the reported events, the collected
note vector, the remaining stream, the running-status value after the
track, and whether the end-of-track meta-event was reached (`false`
means the byte source was exhausted first). -/
structure TrackResult where
  events : List Event
  notes : List Note
  rest : List Nat
  prevStatus : Nat
  ended : Bool
deriving DecidableEq, Repr

/-- Mirrors the per-track `while (!reachedEndOfTrack)` loop of `doWork`,
iterating `step`.  `fuel` only bounds the iteration count; every
successful step consumes at least the delta-time byte, so
`input.length + 1` is always enough. -/
def decodeTrack : Nat → Nat → List Nat → Option TrackResult
  | 0, _, _ => none
  | fuel + 1, prevStatus, input =>
    match step prevStatus input with
    | .exhausted => some ⟨[], [], input, prevStatus, false⟩
    | .trackDone p rest es => some ⟨es, [], rest, p, true⟩
    | .cont p rest es ns =>
      match decodeTrack fuel p rest with
      | none => none
      | some tr => some ⟨es ++ tr.events, ns ++ tr.notes, tr.rest, tr.prevStatus, tr.ended⟩

/-- Mirrors the `for (track_num = 0; ...)` loop of `doWork`: read each
track chunk header, then decode its events.  The running status
`prevStatus` is declared outside this loop in the C++ source and is
therefore carried from one track to the next, never reset. -/
def trackLoop : Nat → Nat → List Nat → Option (List TrackResult)
  | 0, _, _ => some []
  | n + 1, prevStatus, input =>
    match readTrackChunk input with
    | none => none
    | some (_, rest) =>
      match decodeTrack (rest.length + 1) prevStatus rest with
      | none => none
      | some tr =>
        match trackLoop n tr.prevStatus tr.rest with
        | none => none
        | some trs => some (tr :: trs)

/-- Mirrors `MidiFileParser::doWork` on an in-memory byte stream: read the
file header, then decode `ntrks` tracks with the running status
initialized to `0` once, before the track loop. -/
def doWork (bytes : List Nat) : Option (Header × List TrackResult) :=
  match acquireHeaderData bytes with
  | none => none
  | some (header, rest) =>
    match trackLoop header.ntrks 0 rest with
    | none => none
    | some trs => some (header, trs)

/-- Mirrors `MidiFileParser::getTrackNotes`: the per-track note vectors of
a parse. -/
def getTrackNotes (bytes : List Nat) : Option (List (List Note)) :=
  (doWork bytes).map (fun p => p.2.map TrackResult.notes)

/-- The note, if any, that the collector appends for a decoded event:
exactly the `noteOff`/`noteOn` switch cases push a note, with the on flag
true exactly for `noteOn` (independent of the velocity). -/
def noteOfEvent : Event → Option Note
  | .noteOffE _ noteNumber _ _ => some { noteNumber := noteNumber, isOn := false }
  | .noteOnE _ noteNumber _ _ => some { noteNumber := noteNumber, isOn := true }
  | _ => none

/-- The notes the collector produces for a list of decoded events. -/
def notesOfEvents (events : List Event) : List Note :=
  events.filterMap noteOfEvent

/-- Modelled from the spec: the source contains no variable-length-quantity
encoder, so the standard SMF encoding is taken from the spec's glossary
("big-endian, 7-bits-per-byte integer encoding where the top bit of each
byte signals continuation").  This emits the leading bytes (those with the
continuation bit set). -/
def encodeVarLenHigh (n : Nat) : List Nat :=
  if h : n = 0 then [] else encodeVarLenHigh (n / 128) ++ [n % 128 + 128]
termination_by n
decreasing_by exact Nat.div_lt_self (Nat.pos_of_ne_zero h) (by omega)

/-- Modelled from the spec: the full standard variable-length-quantity
encoding of a value, leading continuation bytes followed by the final
byte with clear top bit. -/
def encodeVarLen (v : Nat) : List Nat :=
  encodeVarLenHigh (v / 128) ++ [v % 128]

/-- Number of continuation bytes `encodeVarLenHigh` emits. -/
def vlqDigits (n : Nat) : Nat :=
  if h : n = 0 then 0 else vlqDigits (n / 128) + 1
termination_by n
decreasing_by exact Nat.div_lt_self (Nat.pos_of_ne_zero h) (by omega)


lemma and_127_eq_mod (x : Nat) : x &&& 127 = x % 128 := by
  have h := Nat.and_pow_two_sub_one_eq_mod x 7
  norm_num at h
  exact h

lemma isMSBHigh_testBit (x : Nat) : isMSBHigh x = x.testBit 7 := by
  unfold isMSBHigh
  have h := Nat.and_two_pow x 7
  norm_num at h
  rw [h]
  cases hx : x.testBit 7 <;> simp

lemma isMSBHigh_false_of_lt (x : Nat) (h : x < 128) : isMSBHigh x = false := by
  rw [isMSBHigh_testBit]
  exact Nat.testBit_lt_two_pow (by norm_num; omega)

lemma isMSBHigh_true_of_ge (x : Nat) (h1 : 128 ≤ x) (h2 : x < 256) : isMSBHigh x = true := by
  rw [isMSBHigh_testBit, Nat.testBit_to_div_mod]
  simp only [decide_eq_true_eq]
  norm_num
  omega

lemma mul128_or_eq_add (a b : Nat) (h : b < 128) : a * 128 ||| b = a * 128 + b := by
  have h2 : b < 2 ^ 7 := by norm_num; omega
  have h3 := Nat.mul_add_lt_is_or h2 a
  norm_num at h3
  rw [Nat.mul_comm a 128]
  exact h3.symm

lemma vlqDigits_eq (n : Nat) (h : n ≠ 0) : vlqDigits n = vlqDigits (n / 128) + 1 := by
  rw [vlqDigits]
  simp [h]

lemma encodeVarLenHigh_eq (n : Nat) (h : n ≠ 0) :
    encodeVarLenHigh n = encodeVarLenHigh (n / 128) ++ [n % 128 + 128] := by
  rw [encodeVarLenHigh]
  simp [h]

lemma vlqLoop_encodeHigh (n : Nat) : ∀ acc tail,
    acc * 128 ^ vlqDigits n + n < 4294967296 →
    vlqLoop acc (encodeVarLenHigh n ++ tail) =
      vlqLoop (acc * 128 ^ vlqDigits n + n) tail := by
  induction n using Nat.strong_induction_on with
  | _ n ih =>
    intro acc tail hbound
    by_cases h0 : n = 0
    · subst h0
      rw [encodeVarLenHigh, vlqDigits]
      simp
    · rw [encodeVarLenHigh_eq n h0, vlqDigits_eq n h0] at *
      set k := vlqDigits (n / 128) with hk
      have key : acc * 128 ^ (k + 1) + n = (acc * 128 ^ k + n / 128) * 128 + n % 128 := by
        rw [pow_succ, ← Nat.mul_assoc]
        omega
      have hdivlt : n / 128 < n := Nat.div_lt_self (Nat.pos_of_ne_zero h0) (by omega)
      have hbound2 : acc * 128 ^ k + n / 128 < 4294967296 := by omega
      rw [List.append_assoc, List.cons_append, List.nil_append]
      rw [ih (n / 128) hdivlt acc ((n % 128 + 128) :: tail) hbound2]
      rw [vlqLoop]
      have hmsb : isMSBHigh ((n % 128 + 128) % 256) = true := by
        have hb1 : (n % 128 + 128) % 256 = n % 128 + 128 := by omega
        rw [hb1]
        exact isMSBHigh_true_of_ge _ (by omega) (by omega)
      simp only [hmsb, if_true]
      congr 1
      have hshift : (acc * 128 ^ k + n / 128) <<< 7 = (acc * 128 ^ k + n / 128) * 128 := by
        rw [Nat.shiftLeft_eq]
      have hmod : (acc * 128 ^ k + n / 128) * 128 % 4294967296 =
          (acc * 128 ^ k + n / 128) * 128 := by
        apply Nat.mod_eq_of_lt
        omega
      have hand : (n % 128 + 128) % 256 &&& 127 = n % 128 := by
        rw [and_127_eq_mod]
        omega
      rw [hshift, hmod, hand, mul128_or_eq_add _ _ (by omega)]
      omega

lemma readVarLen_eq_vlqLoop (input : List Nat) :
    readVariableLengthData input = vlqLoop 0 input := by
  cases input with
  | nil => rfl
  | cons b rest =>
    simp only [readVariableLengthData, vlqLoop, Nat.zero_shiftLeft, Nat.zero_mod,
      Nat.zero_or]

lemma decode_encodeVarLen (v : Nat) (hv : v ≤ 0x0FFFFFFF) (rest : List Nat) :
    readVariableLengthData (encodeVarLen v ++ rest) = some (v, rest) := by
  rw [readVarLen_eq_vlqLoop]
  rw [encodeVarLen, List.append_assoc, List.cons_append, List.nil_append]
  have hb : 0 * 128 ^ vlqDigits (v / 128) + v / 128 < 4294967296 := by
    have : v / 128 ≤ v := Nat.div_le_self v 128
    omega
  rw [vlqLoop_encodeHigh (v / 128) 0 (v % 128 :: rest) hb]
  rw [vlqLoop]
  have hb1 : v % 128 % 256 = v % 128 := by omega
  have hmsb : isMSBHigh (v % 128 % 256) = false := by
    rw [hb1]
    exact isMSBHigh_false_of_lt _ (by omega)
  simp only [hmsb, Bool.false_eq_true, if_false]
  have hshift : (0 * 128 ^ vlqDigits (v / 128) + v / 128) <<< 7 = v / 128 * 128 := by
    rw [Nat.shiftLeft_eq]
    ring
  rw [hshift]
  have hmod : v / 128 * 128 % 4294967296 = v / 128 * 128 := by
    apply Nat.mod_eq_of_lt
    have : v / 128 * 128 ≤ v := Nat.div_mul_le_self v 128
    omega
  rw [hmod, hb1, and_127_eq_mod]
  have h1 : v % 128 % 128 = v % 128 := by omega
  rw [h1, mul128_or_eq_add _ _ (by omega)]
  have h2 : v / 128 * 128 + v % 128 = v := by omega
  rw [h2]

lemma channelVoice2_shape (status : Nat) (mk : Nat → Nat → Event)
    (notes : Nat → List Note) (input : List Nat) :
    channelVoice2 status mk notes input = .exhausted ∨
      ∃ a b r2, channelVoice2 status mk notes input = .cont status r2 [mk a b] (notes a) := by
  unfold channelVoice2
  repeat' split
  all_goals first
    | exact Or.inl rfl
    | exact Or.inr ⟨_, _, _, rfl⟩

lemma channelVoice1_shape (status : Nat) (mk : Nat → Event) (input : List Nat) :
    channelVoice1 status mk input = .exhausted ∨
      ∃ a r2, channelVoice1 status mk input = .cont status r2 [mk a] [] := by
  unfold channelVoice1
  repeat' split
  all_goals first
    | exact Or.inl rfl
    | exact Or.inr ⟨_, _, rfl⟩

lemma metaTextCase_shape (status : Nat) (mk : List Nat → Event) (length : Nat)
    (input : List Nat) :
    metaTextCase status mk length input = .exhausted ∨
      ∃ text r2, metaTextCase status mk length input = .cont status r2 [mk text] [] := by
  unfold metaTextCase
  repeat' split
  all_goals first
    | exact Or.inl rfl
    | exact Or.inr ⟨_, _, rfl⟩

lemma sysexCase_shape (status : Nat) (mk : List Nat → Event) (input : List Nat) :
    sysexCase status mk input = .exhausted ∨
      ∃ text r2, sysexCase status mk input = .cont status r2 [mk text] [] := by
  unfold sysexCase
  repeat' split
  all_goals first
    | exact Or.inl rfl
    | exact Or.inr ⟨_, _, rfl⟩

lemma metaSequenceNumber_shape (status : Nat) (input : List Nat) :
    metaSequenceNumber status input = .exhausted ∨
      ∃ msb lsb r2, metaSequenceNumber status input = .cont status r2 [.sequenceNumberE msb lsb] [] := by
  unfold metaSequenceNumber
  repeat' split
  all_goals first
    | exact Or.inl rfl
    | exact Or.inr ⟨_, _, _, rfl⟩

lemma metaChannelPrefix_shape (status : Nat) (input : List Nat) :
    metaChannelPrefix status input = .exhausted ∨
      ∃ c r2, metaChannelPrefix status input = .cont status r2 [.midiChannelPrefixE c] [] := by
  unfold metaChannelPrefix
  repeat' split
  all_goals first
    | exact Or.inl rfl
    | exact Or.inr ⟨_, _, rfl⟩

lemma metaSetTempo_shape (status : Nat) (input : List Nat) :
    metaSetTempo status input = .exhausted ∨
      ∃ m bp r2, metaSetTempo status input = .cont status r2 [.setTempoE m bp] [] := by
  unfold metaSetTempo
  repeat' split
  all_goals first
    | exact Or.inl rfl
    | exact Or.inr ⟨_, _, _, rfl⟩

lemma metaSmpteOffset_shape (status : Nat) (input : List Nat) :
    metaSmpteOffset status input = .exhausted ∨
      ∃ a b c d e r2, metaSmpteOffset status input = .cont status r2 [.smpteOffsetE a b c d e] [] := by
  unfold metaSmpteOffset
  repeat' split
  all_goals first
    | exact Or.inl rfl
    | exact Or.inr ⟨_, _, _, _, _, _, rfl⟩

lemma metaTimeSignature_shape (status : Nat) (input : List Nat) :
    metaTimeSignature status input = .exhausted ∨
      ∃ a b c d r2, metaTimeSignature status input = .cont status r2 [.timeSignatureE a b c d] [] := by
  unfold metaTimeSignature
  repeat' split
  all_goals first
    | exact Or.inl rfl
    | exact Or.inr ⟨_, _, _, _, _, rfl⟩

lemma metaKeySignature_shape (status : Nat) (input : List Nat) :
    metaKeySignature status input = .exhausted ∨
      ∃ a b r2, metaKeySignature status input = .cont status r2 [.keySignatureE a b] [] := by
  unfold metaKeySignature
  repeat' split
  all_goals first
    | exact Or.inl rfl
    | exact Or.inr ⟨_, _, _, rfl⟩

lemma metaTypeSwitch_shape (status t length : Nat) (input : List Nat) (res : StepResult)
    (h : metaTypeSwitch status t length input = res) :
    res = .exhausted ∨ res = .trackDone status input [.endOfTrackE] ∨
      ∃ r2 es ns, res = .cont status r2 es ns ∧ ns = notesOfEvents es := by
  unfold metaTypeSwitch at h
  repeat' split at h
  · rcases metaSequenceNumber_shape status input with hx | ⟨msb, lsb, r2, hx⟩
    · exact Or.inl (h.symm.trans hx)
    · exact Or.inr (Or.inr ⟨r2, _, _, h.symm.trans hx, rfl⟩)
  · rcases metaTextCase_shape status Event.textEventE length input with hx | ⟨text, r2, hx⟩
    · exact Or.inl (h.symm.trans hx)
    · exact Or.inr (Or.inr ⟨r2, _, _, h.symm.trans hx, rfl⟩)
  · rcases metaTextCase_shape status Event.copyrightNoticeE length input with hx | ⟨text, r2, hx⟩
    · exact Or.inl (h.symm.trans hx)
    · exact Or.inr (Or.inr ⟨r2, _, _, h.symm.trans hx, rfl⟩)
  · rcases metaTextCase_shape status Event.sequenceTrackNameE length input with hx | ⟨text, r2, hx⟩
    · exact Or.inl (h.symm.trans hx)
    · exact Or.inr (Or.inr ⟨r2, _, _, h.symm.trans hx, rfl⟩)
  · rcases metaTextCase_shape status Event.instrumentNameE length input with hx | ⟨text, r2, hx⟩
    · exact Or.inl (h.symm.trans hx)
    · exact Or.inr (Or.inr ⟨r2, _, _, h.symm.trans hx, rfl⟩)
  · rcases metaTextCase_shape status Event.lyricsE length input with hx | ⟨text, r2, hx⟩
    · exact Or.inl (h.symm.trans hx)
    · exact Or.inr (Or.inr ⟨r2, _, _, h.symm.trans hx, rfl⟩)
  · rcases metaTextCase_shape status Event.markerE length input with hx | ⟨text, r2, hx⟩
    · exact Or.inl (h.symm.trans hx)
    · exact Or.inr (Or.inr ⟨r2, _, _, h.symm.trans hx, rfl⟩)
  · rcases metaTextCase_shape status Event.cuePointE length input with hx | ⟨text, r2, hx⟩
    · exact Or.inl (h.symm.trans hx)
    · exact Or.inr (Or.inr ⟨r2, _, _, h.symm.trans hx, rfl⟩)
  · rcases metaChannelPrefix_shape status input with hx | ⟨c, r2, hx⟩
    · exact Or.inl (h.symm.trans hx)
    · exact Or.inr (Or.inr ⟨r2, _, _, h.symm.trans hx, rfl⟩)
  · exact Or.inr (Or.inl h.symm)
  · rcases metaSetTempo_shape status input with hx | ⟨m, bp, r2, hx⟩
    · exact Or.inl (h.symm.trans hx)
    · exact Or.inr (Or.inr ⟨r2, _, _, h.symm.trans hx, rfl⟩)
  · rcases metaSmpteOffset_shape status input with hx | ⟨a, b, c, d, e, r2, hx⟩
    · exact Or.inl (h.symm.trans hx)
    · exact Or.inr (Or.inr ⟨r2, _, _, h.symm.trans hx, rfl⟩)
  · rcases metaTimeSignature_shape status input with hx | ⟨a, b, c, d, r2, hx⟩
    · exact Or.inl (h.symm.trans hx)
    · exact Or.inr (Or.inr ⟨r2, _, _, h.symm.trans hx, rfl⟩)
  · rcases metaKeySignature_shape status input with hx | ⟨a, b, r2, hx⟩
    · exact Or.inl (h.symm.trans hx)
    · exact Or.inr (Or.inr ⟨r2, _, _, h.symm.trans hx, rfl⟩)
  · rcases metaTextCase_shape status Event.sequencerSpecificE length input with hx | ⟨text, r2, hx⟩
    · exact Or.inl (h.symm.trans hx)
    · exact Or.inr (Or.inr ⟨r2, _, _, h.symm.trans hx, rfl⟩)
  · exact Or.inr (Or.inr ⟨input, [], [], h.symm, rfl⟩)

lemma metaDispatch_shape (status delta : Nat) (input : List Nat) (res : StepResult)
    (h : metaDispatch status delta input = res) :
    res = .exhausted ∨ (∃ r2, res = .trackDone status r2 [.endOfTrackE]) ∨
      ∃ r2 es ns, res = .cont status r2 es ns ∧ ns = notesOfEvents es := by
  unfold metaDispatch at h
  repeat' split at h
  · exact Or.inl h.symm
  · exact Or.inl h.symm
  · rcases metaTypeSwitch_shape _ _ _ _ _ h with hx | hx | ⟨r2, es, ns, hx, hns⟩
    · exact Or.inl hx
    · exact Or.inr (Or.inl ⟨_, hx⟩)
    · exact Or.inr (Or.inr ⟨r2, es, ns, hx, hns⟩)
  · rcases sysexCase_shape 0xF0 Event.sysexBeginE input with hx | ⟨text, r2, hx⟩
    · exact Or.inl (h.symm.trans hx)
    · exact Or.inr (Or.inr ⟨r2, _, _, h.symm.trans hx, rfl⟩)
  · rcases sysexCase_shape 0xF7 Event.sysexEndE input with hx | ⟨text, r2, hx⟩
    · exact Or.inl (h.symm.trans hx)
    · exact Or.inr (Or.inr ⟨r2, _, _, h.symm.trans hx, rfl⟩)
  · exact Or.inr (Or.inr ⟨input, _, _, h.symm, rfl⟩)

lemma dispatch_shape (prevStatus status delta : Nat) (input : List Nat) (res : StepResult)
    (h : dispatch prevStatus status delta input = res) :
    res = .exhausted ∨ (∃ r2, res = .trackDone status r2 [.endOfTrackE]) ∨
      ∃ p r2 es ns, res = .cont p r2 es ns ∧ ns = notesOfEvents es := by
  unfold dispatch at h
  repeat' split at h
  · rcases channelVoice2_shape status _ _ input with hx | ⟨a, b, r2, hx⟩
    · exact Or.inl (h.symm.trans hx)
    · exact Or.inr (Or.inr ⟨status, r2, _, _, h.symm.trans hx, rfl⟩)
  · rcases channelVoice2_shape status _ _ input with hx | ⟨a, b, r2, hx⟩
    · exact Or.inl (h.symm.trans hx)
    · exact Or.inr (Or.inr ⟨status, r2, _, _, h.symm.trans hx, rfl⟩)
  · rcases channelVoice2_shape status _ _ input with hx | ⟨a, b, r2, hx⟩
    · exact Or.inl (h.symm.trans hx)
    · exact Or.inr (Or.inr ⟨status, r2, _, _, h.symm.trans hx, rfl⟩)
  · rcases channelVoice2_shape status _ _ input with hx | ⟨a, b, r2, hx⟩
    · exact Or.inl (h.symm.trans hx)
    · exact Or.inr (Or.inr ⟨status, r2, _, _, h.symm.trans hx, rfl⟩)
  · rcases channelVoice1_shape status _ input with hx | ⟨a, r2, hx⟩
    · exact Or.inl (h.symm.trans hx)
    · exact Or.inr (Or.inr ⟨status, r2, _, _, h.symm.trans hx, rfl⟩)
  · rcases channelVoice1_shape status _ input with hx | ⟨a, r2, hx⟩
    · exact Or.inl (h.symm.trans hx)
    · exact Or.inr (Or.inr ⟨status, r2, _, _, h.symm.trans hx, rfl⟩)
  · rcases channelVoice2_shape status _ _ input with hx | ⟨a, b, r2, hx⟩
    · exact Or.inl (h.symm.trans hx)
    · exact Or.inr (Or.inr ⟨status, r2, _, _, h.symm.trans hx, rfl⟩)
  · rcases metaDispatch_shape status delta input _ h with hx | ⟨r2, hx⟩ | ⟨r2, es, ns, hx, hns⟩
    · exact Or.inl hx
    · exact Or.inr (Or.inl ⟨r2, hx⟩)
    · exact Or.inr (Or.inr ⟨status, r2, es, ns, hx, hns⟩)
  · exact Or.inr (Or.inr ⟨prevStatus, input, [], [], h.symm, rfl⟩)

lemma step_shape (prev : Nat) (input : List Nat) (res : StepResult)
    (h : step prev input = res) :
    res = .exhausted ∨
      (∃ p r2 es, res = .trackDone p r2 es ∧ notesOfEvents es = []) ∨
      ∃ p r2 es ns, res = .cont p r2 es ns ∧ ns = notesOfEvents es := by
  unfold step at h
  repeat' split at h
  · exact Or.inl h.symm
  · exact Or.inl h.symm
  · rcases dispatch_shape prev _ _ _ _ h with hx | ⟨r2, hx⟩ | ⟨p, r2, es, ns, hx, hns⟩
    · exact Or.inl hx
    · exact Or.inr (Or.inl ⟨_, r2, _, hx, rfl⟩)
    · exact Or.inr (Or.inr ⟨p, r2, es, ns, hx, hns⟩)

lemma decodeTrack_notes (fuel : Nat) : ∀ prev input tr,
    decodeTrack fuel prev input = some tr → tr.notes = notesOfEvents tr.events := by
  induction fuel with
  | zero =>
    intro prev input tr h
    simp [decodeTrack] at h
  | succ n ih =>
    intro prev input tr h
    rw [decodeTrack] at h
    rcases step_shape prev input _ rfl with hx | ⟨p, r2, es, hx, hns⟩ | ⟨p, r2, es, ns, hx, hns⟩ <;>
      rw [hx] at h
    · cases h
      rfl
    · cases h
      exact hns.symm
    · simp only at h
      split at h
      · cases h
      · rename_i tr2 hrec
        cases h
        simp only [notesOfEvents, List.filterMap_append]
        rw [← notesOfEvents, ← notesOfEvents, hns, ih _ _ _ hrec]

lemma trackLoop_notes (n : Nat) : ∀ prev input trs,
    trackLoop n prev input = some trs →
    ∀ tr ∈ trs, tr.notes = notesOfEvents tr.events := by
  induction n with
  | zero =>
    intro prev input trs h
    simp [trackLoop] at h
    subst h
    intro tr htr
    cases htr
  | succ m ih =>
    intro prev input trs h
    rw [trackLoop] at h
    split at h
    · cases h
    · rename_i chunk rest hchunk
      split at h
      · cases h
      · rename_i tr hdec
        split at h
        · cases h
        · rename_i trs2 hloop
          cases h
          intro tr2 htr2
          rcases List.mem_cons.mp htr2 with h1 | h2
          · subst h1
            exact decodeTrack_notes _ _ _ _ hdec
          · exact ih _ _ _ hloop _ h2

lemma readVarLen_single (d : Nat) (hd : d < 0x80) (rest : List Nat) :
    readVariableLengthData (d :: rest) = some (d, rest) := by
  have h1 : d % 256 = d := by omega
  have h2 : d &&& 127 = d := by rw [and_127_eq_mod]; omega
  simp only [readVariableLengthData, h1, h2, isMSBHigh_false_of_lt d hd,
    Bool.false_eq_true, if_false]

lemma step_small (prev d c : Nat) (rest : List Nat) (hd : d < 0x80) (hc : c < 256) :
    step prev (d :: c :: rest) =
      dispatch prev (resolveStatus prev c rest).1 d (resolveStatus prev c rest).2 := by
  have h1 : c % 256 = c := by omega
  simp only [step, readVarLen_single d hd, readByte, h1]

lemma step_statusByteError (prev d s : Nat) (rest : List Nat) (hd : d < 0x80)
    (hs1 : 0xF0 ≤ s) (hs2 : s ≤ 0xFF) (hs3 : s ≠ 0xFF) (hs4 : s ≠ 0xF0) (hs5 : s ≠ 0xF7) :
    step prev (d :: s :: rest) = .cont s rest [.statusByteErrorE s] [] := by
  rw [step_small prev d s rest hd (by omega)]
  have hr : resolveStatus prev s rest = (s, rest) := by
    unfold resolveStatus
    rw [if_neg (by omega)]
  rw [hr]
  have hnib : s >>> 4 = 15 := by
    rw [Nat.shiftRight_eq_div_pow]
    omega
  unfold dispatch
  rw [hnib]
  unfold metaDispatch
  have : s = 255 ∨ s = 254 ∨ s = 253 ∨ s = 252 ∨ s = 251 ∨ s = 250 ∨ s = 249 ∨ s = 248 ∨
      s = 247 ∨ s = 246 ∨ s = 245 ∨ s = 244 ∨ s = 243 ∨ s = 242 ∨ s = 241 ∨ s = 240 := by
    omega
  rcases this with h | h | h | h | h | h | h | h | h | h | h | h | h | h | h | h <;>
    subst h <;> first | rfl | (exact absurd rfl (by assumption))

lemma step_endOfTrack (prev dv : Nat) (input junk : List Nat)
    (h : readVariableLengthData input = some (dv, 0xFF :: 0x2F :: 0x00 :: junk)) :
    step prev input = .trackDone 0xFF junk [.endOfTrackE] := by
  simp only [step, h, readByte]
  have h255 : (255 : Nat) % 256 = 255 := by norm_num
  rw [h255]
  have hr : resolveStatus prev 255 (47 :: 0 :: junk) = (255, 47 :: 0 :: junk) := by
    unfold resolveStatus
    rw [if_neg (by omega)]
  rw [hr]
  unfold dispatch
  norm_num
  unfold metaDispatch
  simp only [readByte]
  norm_num
  rw [readVarLen_single 0 (by omega) junk]
  rfl

lemma decodeTrack_endOfTrack (fuel prev dv : Nat) (input junk : List Nat)
    (h : readVariableLengthData input = some (dv, 0xFF :: 0x2F :: 0x00 :: junk)) :
    decodeTrack (fuel + 1) prev input = some ⟨[.endOfTrackE], [], junk, 0xFF, true⟩ := by
  rw [decodeTrack, step_endOfTrack prev dv input junk h]

lemma step_metaFamily (prev d c : Nat) (rest : List Nat) (hd : d < 0x80) (hc : c < 0x80)
    (hp1 : 0xF0 ≤ prev) (hp2 : prev ≤ 0xFF) :
    step prev (d :: c :: rest) = metaDispatch prev d (c :: rest) := by
  rw [step_small prev d c rest hd (by omega)]
  have hr : resolveStatus prev c rest = (prev, c :: rest) := by
    unfold resolveStatus
    rw [if_pos (by omega)]
  rw [hr]
  have hnib : prev >>> 4 = 15 := by
    rw [Nat.shiftRight_eq_div_pow]
    omega
  unfold dispatch
  rw [hnib]

lemma step_metaExplicit (prev d s : Nat) (rest : List Nat) (hd : d < 0x80)
    (hs1 : 0xF0 ≤ s) (hs2 : s ≤ 0xFF) :
    step prev (d :: s :: rest) = metaDispatch s d rest := by
  rw [step_small prev d s rest hd (by omega)]
  have hr : resolveStatus prev s rest = (s, rest) := by
    unfold resolveStatus
    rw [if_neg (by omega)]
  rw [hr]
  have hnib : s >>> 4 = 15 := by
    rw [Nat.shiftRight_eq_div_pow]
    omega
  unfold dispatch
  rw [hnib]

/-- C1: decoding the set-tempo meta-event with payload `[0x07, 0xA1, 0x20]`.
The code reports `mspm = 499975`, because line 385 combines `byte0` twice
(`(byte0 << 16) | (byte1 << 8) | (byte0)`) and never folds in `byte2`; the
claimed value `(b0<<16)|(b1<<8)|b2 = 500000` differs, though the integer
BPM still comes out as 120 on this input.  This refutes the claim's
`mspqn` formula on the code as written (the spec flags this as a known
defect of the reference). -/
theorem setTempo_code_result :
    step 0 [0x00, 0xFF, 0x51, 0x03, 0x07, 0xA1, 0x20] =
      .cont 0xFF [] [.setTempoE 499975 120] [] ∧
    (499975 : Nat) ≠ 500000 ∧
    (((0x07 <<< 16) ||| (0xA1 <<< 8) ||| 0x20 : Nat)) = 500000 ∧
    (60000000 / 499975 : Nat) = 120 := by
  refine ⟨by decide, by decide, by decide, by decide⟩

/-- C2: a meta-event of unknown type `0x60` with declared length 5.  The
inner `switch (type)` has no default case, so the decoder consumes only
the type and length bytes and leaves all 5 payload bytes `[1,2,3,4,5]` in
the stream; the cursor is NOT advanced to the next event's delta-time as
the claim requires. -/
theorem unknownMeta_payload_not_consumed :
    step 0 [0x00, 0xFF, 0x60, 0x05, 1, 2, 3, 4, 5] =
      .cont 0xFF [1, 2, 3, 4, 5] [] [] ∧ ([1, 2, 3, 4, 5] : List Nat) ≠ [] := by
  refine ⟨by decide, by decide⟩

/-- C3: for every parse that completes, each track's collected note vector
equals the note projection of that track's decoded event list: exactly one
`Note` per decoded `noteOff`/`noteOn` event, in decode order, with the on
flag true exactly for the `noteOn` family (a `noteOn` with velocity 0
included), and `getTrackNotes` returns exactly those per-track vectors. -/
theorem notes_match_note_events (bytes : List Nat) (header : Header)
    (trs : List TrackResult) (h : doWork bytes = some (header, trs)) :
    getTrackNotes bytes = some (trs.map TrackResult.notes) ∧
    ∀ tr ∈ trs, tr.notes = notesOfEvents tr.events := by
  constructor
  · simp [getTrackNotes, h]
  · unfold doWork at h
    split at h
    · cases h
    · rename_i hd rest hhd
      split at h
      · cases h
      · rename_i trs2 hloop
        cases h
        exact trackLoop_notes _ _ _ _ hloop

/-- Witness for C3 at a concrete one-track file containing a velocity-0
`noteOn` and a `noteOff`. -/
theorem notes_match_note_events_witness :
    doWork ([0x4D, 0x54, 0x68, 0x64, 0, 0, 0, 6, 0, 0, 0, 1, 0, 0x60] ++
        [0x4D, 0x54, 0x72, 0x6B, 0, 0, 0, 12] ++
        [0x00, 0x90, 0x3C, 0x00, 0x00, 0x80, 0x3C, 0x40, 0x00, 0xFF, 0x2F, 0x00]) =
      some (⟨1297377380, 6, 0, 1, 96⟩,
        [⟨[.noteOnE 0 60 0 0, .noteOffE 0 60 64 0, .endOfTrackE],
          [⟨60, true⟩, ⟨60, false⟩], [], 0xFF, true⟩]) ∧
    (TrackResult.notes ⟨[.noteOnE 0 60 0 0, .noteOffE 0 60 64 0, .endOfTrackE],
        [⟨60, true⟩, ⟨60, false⟩], [], 0xFF, true⟩ =
      notesOfEvents (TrackResult.events ⟨[.noteOnE 0 60 0 0, .noteOffE 0 60 64 0, .endOfTrackE],
        [⟨60, true⟩, ⟨60, false⟩], [], 0xFF, true⟩)) := by
  have h : doWork ([0x4D, 0x54, 0x68, 0x64, 0, 0, 0, 6, 0, 0, 0, 1, 0, 0x60] ++
      [0x4D, 0x54, 0x72, 0x6B, 0, 0, 0, 12] ++
      [0x00, 0x90, 0x3C, 0x00, 0x00, 0x80, 0x3C, 0x40, 0x00, 0xFF, 0x2F, 0x00]) =
      some (⟨1297377380, 6, 0, 1, 96⟩,
        [⟨[.noteOnE 0 60 0 0, .noteOffE 0 60 64 0, .endOfTrackE],
          [⟨60, true⟩, ⟨60, false⟩], [], 0xFF, true⟩]) := by decide
  refine ⟨h, (notes_match_note_events _ _ _ h).2 _ ?_⟩
  simp

/-- C4: a prospective status byte below `0x80` is pushed back and the
recorded running status is substituted (`resolveStatus`), and the concrete
track `00 90 3C 40 00 3E 50` (delta-times included) decodes to two
`noteOn` events with note numbers 60 and 62, both on channel 0 under
status `0x90`. -/
theorem runningStatus_pushback :
    (∀ prevStatus candidate : Nat, ∀ rest : List Nat, candidate < 0x80 →
      resolveStatus prevStatus candidate rest = (prevStatus, candidate :: rest)) ∧
    decodeTrack 4 0 [0x00, 0x90, 0x3C, 0x40, 0x00, 0x3E, 0x50, 0x00, 0xFF, 0x2F, 0x00] =
      some ⟨[.noteOnE 0 60 64 0, .noteOnE 0 62 80 0, .endOfTrackE],
        [⟨60, true⟩, ⟨62, true⟩], [], 0xFF, true⟩ := by
  constructor
  · intro p c rest hc
    unfold resolveStatus
    rw [if_pos hc]
  · decide

/-- Witness for C4 at the claim's own bytes `0x3E 0x50` under running
status `0x90`. -/
theorem runningStatus_pushback_witness :
    (0x3E : Nat) < 0x80 ∧
    resolveStatus 0x90 0x3E [0x50] = (0x90, [0x3E, 0x50]) :=
  ⟨by decide, runningStatus_pushback.1 0x90 0x3E [0x50] (by decide)⟩

/-- C5 counterexample: a track whose first prospective status byte is the
data byte `0x3C` with no previously recorded status.  The claim says the
decoder fails with a `NoRunningStatusAvailable` hard parse error; instead
the decode completes normally (`ended = true`, later recovering via the
`0xFF 0x2F 0x00` bytes), producing no error of any kind — no such error
exists in the code. -/
theorem noRunningStatus_no_failure :
    decodeTrack 10 0 [0x00, 0x3C, 0x40, 0x00, 0xFF, 0x2F, 0x00] =
      some ⟨[.endOfTrackE], [], [], 0xFF, true⟩ := by
  decide

/-- C5 amended: with no previous status recorded (`prevStatus` still its
initial value 0), a data byte read as a prospective status byte is pushed
back and 0 is substituted; the high nibble 0 matches no dispatch case, so
the event is silently skipped — only the delta-time is consumed, nothing
is reported, and decoding continues with the pushed-back byte. -/
theorem noRunningStatus_silent (d c : Nat) (rest : List Nat)
    (hd : d < 0x80) (hc : c < 0x80) :
    step 0 (d :: c :: rest) = .cont 0 (c :: rest) [] [] := by
  rw [step_small 0 d c rest hd (by omega)]
  have hr : resolveStatus 0 c rest = (0, c :: rest) := by
    unfold resolveStatus
    rw [if_pos hc]
  simp only [hr]
  rfl

/-- Witness for the amended C5 at delta `0x10` and data byte `0x3C`. -/
theorem noRunningStatus_silent_witness :
    (0x10 : Nat) < 0x80 ∧ (0x3C : Nat) < 0x80 ∧
    step 0 [0x10, 0x3C] = .cont 0 [0x3C] [] [] :=
  ⟨by decide, by decide, noRunningStatus_silent 0x10 0x3C [] (by decide) (by decide)⟩

/-- C6 counterexample: a two-track file.  Track 1 ends with the
end-of-track meta-event, recording running status `0xFF`; track 2's bytes
`00 2F 00` contain no status byte at all, yet they decode to an
end-of-track event (`ended = true`) — the leading data byte `0x2F`
resolved against the `0xFF` recorded during track 1.  Had the running
status been reset to 0 at the start of the track, the same bytes would
decode to no events and no end-of-track (second conjunct). -/
theorem runningStatus_crossTrack :
    (doWork ([0x4D, 0x54, 0x68, 0x64, 0, 0, 0, 6, 0, 0, 0, 2, 0, 0x60] ++
        [0x4D, 0x54, 0x72, 0x6B, 0, 0, 0, 8] ++
        [0x00, 0x90, 0x3C, 0x40, 0x00, 0xFF, 0x2F, 0x00] ++
        [0x4D, 0x54, 0x72, 0x6B, 0, 0, 0, 3] ++
        [0x00, 0x2F, 0x00])).map (fun p => p.2.map (fun tr => (tr.events, tr.ended))) =
      some [([.noteOnE 0 60 64 0, .endOfTrackE], true), ([.endOfTrackE], true)] ∧
    decodeTrack 4 0 [0x00, 0x2F, 0x00] = some ⟨[], [], [0x00], 0, false⟩ := by
  refine ⟨by decide, by decide⟩

/-- C6 amended: the running status is never reset between tracks: the
track loop decodes each subsequent track starting from the previous
track's final running status (`tr.prevStatus`), not from a fresh
unset value. -/
theorem trackLoop_carries_prevStatus (n prevStatus : Nat) (input rest : List Nat)
    (chunk : Track) (tr : TrackResult)
    (hchunk : readTrackChunk input = some (chunk, rest))
    (hdec : decodeTrack (rest.length + 1) prevStatus rest = some tr) :
    trackLoop (n + 1) prevStatus input =
      (trackLoop n tr.prevStatus tr.rest).map (tr :: ·) := by
  rw [trackLoop]
  simp only [hchunk, hdec]
  cases trackLoop n tr.prevStatus tr.rest with
  | none => rfl
  | some trs => rfl

/-- Witness for the amended C6 at a concrete one-track chunk whose decode
ends with running status `0xFF`. -/
theorem trackLoop_carries_prevStatus_witness :
    readTrackChunk ([0x4D, 0x54, 0x72, 0x6B, 0, 0, 0, 8] ++
        [0x00, 0x90, 0x3C, 0x40, 0x00, 0xFF, 0x2F, 0x00]) =
      some (⟨1297379947, 8⟩, [0x00, 0x90, 0x3C, 0x40, 0x00, 0xFF, 0x2F, 0x00]) ∧
    trackLoop (0 + 1) 0 ([0x4D, 0x54, 0x72, 0x6B, 0, 0, 0, 8] ++
        [0x00, 0x90, 0x3C, 0x40, 0x00, 0xFF, 0x2F, 0x00]) =
      (trackLoop 0 0xFF []).map
        ((⟨[.noteOnE 0 60 64 0, .endOfTrackE], [⟨60, true⟩], [], 0xFF, true⟩ : TrackResult) :: ·) := by
  constructor
  · decide
  · exact trackLoop_carries_prevStatus 0 0
      ([0x4D, 0x54, 0x72, 0x6B, 0, 0, 0, 8] ++
        [0x00, 0x90, 0x3C, 0x40, 0x00, 0xFF, 0x2F, 0x00])
      [0x00, 0x90, 0x3C, 0x40, 0x00, 0xFF, 0x2F, 0x00]
      ⟨1297379947, 8⟩
      ⟨[.noteOnE 0 60 64 0, .endOfTrackE], [⟨60, true⟩], [], 0xFF, true⟩
      (by decide) (by decide)

/-- C7: whenever the decoder stands at an event boundary whose delta-time
is followed by `0xFF 0x2F 0x00`, the per-track loop returns at once with
exactly the bytes after the `0x00` untouched — regardless of how many
bytes remain and of any declared chunk length (which the loop never
consults), and even with only one loop iteration of fuel left. -/
theorem endOfTrack_terminates (fuel prevStatus dv : Nat) (input junk : List Nat)
    (h : readVariableLengthData input = some (dv, 0xFF :: 0x2F :: 0x00 :: junk)) :
    decodeTrack (fuel + 1) prevStatus input = some ⟨[.endOfTrackE], [], junk, 0xFF, true⟩ := by
  rw [decodeTrack, step_endOfTrack prevStatus dv input junk h]

/-- Witness for C7: delta `0x00`, end-of-track bytes, and two junk bytes
that remain untouched, with a single iteration of fuel. -/
theorem endOfTrack_terminates_witness :
    readVariableLengthData [0x00, 0xFF, 0x2F, 0x00, 9, 9] =
      some (0, [0xFF, 0x2F, 0x00, 9, 9]) ∧
    decodeTrack (0 + 1) 0x90 [0x00, 0xFF, 0x2F, 0x00, 9, 9] =
      some ⟨[.endOfTrackE], [], [9, 9], 0xFF, true⟩ :=
  ⟨by decide, endOfTrack_terminates 0 0x90 0 _ [9, 9] (by decide)⟩

lemma decodeTrack_cont (fuel prev : Nat) (input : List Nat) (p : Nat) (rest : List Nat)
    (es : List Event) (ns : List Note) (h : step prev input = .cont p rest es ns) :
    decodeTrack (fuel + 1) prev input = (decodeTrack fuel p rest).map
      (fun tr => ⟨es ++ tr.events, ns ++ tr.notes, tr.rest, tr.prevStatus, tr.ended⟩) := by
  rw [decodeTrack, h]
  show (match decodeTrack fuel p rest with
    | none => none
    | some tr =>
      some (⟨es ++ tr.events, ns ++ tr.notes, tr.rest, tr.prevStatus, tr.ended⟩ : TrackResult)) =
    (decodeTrack fuel p rest).map
      (fun tr => ⟨es ++ tr.events, ns ++ tr.notes, tr.rest, tr.prevStatus, tr.ended⟩)
  cases decodeTrack fuel p rest with
  | none => rfl
  | some tr => rfl

/-- C8: an explicit `0xF3` status byte (an `0xF`-family byte that is none
of `0xFF`/`0xF0`/`0xF7`) only prepends a `statusByteErrorE` report: no
byte beyond the status byte itself is consumed, the track is not aborted,
and the remainder of the track decodes exactly as it would on its own
(with running status `0xF3`), so subsequent well-formed events are still
decoded. -/
theorem statusByteError_recovers (fuel prevStatus d : Nat) (rest : List Nat) (hd : d < 0x80) :
    decodeTrack (fuel + 1) prevStatus (d :: 0xF3 :: rest) =
      (decodeTrack fuel 0xF3 rest).map
        (fun tr => ⟨.statusByteErrorE 0xF3 :: tr.events, tr.notes, tr.rest,
          tr.prevStatus, tr.ended⟩) := by
  rw [decodeTrack_cont fuel prevStatus _ 0xF3 rest [.statusByteErrorE 0xF3] []
    (step_statusByteError prevStatus d 0xF3 rest hd (by omega) (by omega)
      (by decide) (by decide) (by decide))]
  cases decodeTrack fuel 0xF3 rest with
  | none => rfl
  | some tr => rfl

/-- Witness for C8: after the `0xF3` error report the decoder still
decodes the following `noteOn` and end-of-track events. -/
theorem statusByteError_recovers_witness :
    (0 : Nat) < 0x80 ∧
    decodeTrack (3 + 1) 0 [0x00, 0xF3, 0x00, 0x90, 0x3C, 0x40, 0x00, 0xFF, 0x2F, 0x00] =
      some ⟨[.statusByteErrorE 0xF3, .noteOnE 0 60 64 0, .endOfTrackE],
        [⟨60, true⟩], [], 0xFF, true⟩ := by
  refine ⟨by decide, ?_⟩
  rw [statusByteError_recovers 3 0 0 [0x00, 0x90, 0x3C, 0x40, 0x00, 0xFF, 0x2F, 0x00] (by decide)]
  decide

/-- C9: the source's variable-length-quantity decoder is a left inverse of
the standard 7-bit-per-byte encoding (modelled from the spec, since the
source has no encoder) for every value up to `0x0FFFFFFF`, and the three
concrete decodes of the claim hold: `[0x00] ↦ 0`, `[0x81 0x00] ↦ 128`,
`[0xFF 0x7F] ↦ 0x3FFF`. -/
theorem vlq_decode_encode :
    (∀ v : Nat, v ≤ 0x0FFFFFFF → ∀ rest : List Nat,
      readVariableLengthData (encodeVarLen v ++ rest) = some (v, rest)) ∧
    readVariableLengthData [0x00] = some (0, []) ∧
    readVariableLengthData [0x81, 0x00] = some (128, []) ∧
    readVariableLengthData [0xFF, 0x7F] = some (0x3FFF, []) := by
  refine ⟨fun v hv rest => decode_encodeVarLen v hv rest, by decide, by decide, by decide⟩

/-- Witness for C9 at `v = 128` (encoded `[0x81, 0x00]`). -/
theorem vlq_decode_encode_witness :
    (128 : Nat) ≤ 0x0FFFFFFF ∧
    readVariableLengthData (encodeVarLen 128 ++ []) = some (128, []) :=
  ⟨by decide, vlq_decode_encode.1 128 (by decide) []⟩

/-- C10: after decoding an event whose explicit status byte is in the
`0xF` family (`0xF0 ≤ s ≤ 0xFF`), the recorded running status equals that
byte (the `metaEvent` case assigns `prevStatus = status` before its
sub-dispatch), and consequently a following data byte (< `0x80`) read as
a prospective status dispatches into the `0xF` (meta) branch under that
recorded byte rather than to any earlier channel-voice status. -/
theorem metaFamily_updates_prevStatus :
    (∀ prevStatus d s : Nat, ∀ rest : List Nat, ∀ p : Nat, ∀ r2 : List Nat,
      ∀ es : List Event, ∀ ns : List Note,
      d < 0x80 → 0xF0 ≤ s → s ≤ 0xFF →
      (step prevStatus (d :: s :: rest) = .cont p r2 es ns → p = s) ∧
      (step prevStatus (d :: s :: rest) = .trackDone p r2 es → p = s)) ∧
    (∀ prevStatus d c : Nat, ∀ rest : List Nat,
      d < 0x80 → c < 0x80 → 0xF0 ≤ prevStatus → prevStatus ≤ 0xFF →
      step prevStatus (d :: c :: rest) = metaDispatch prevStatus d (c :: rest)) := by
  constructor
  · intro prevStatus d s rest p r2 es ns hd hs1 hs2
    constructor
    · intro h
      rw [step_metaExplicit prevStatus d s rest hd hs1 hs2] at h
      rcases metaDispatch_shape s d rest _ h with hx | ⟨r3, hx⟩ | ⟨r3, es2, ns2, hx, _⟩
      · cases hx
      · cases hx
      · cases hx
        rfl
    · intro h
      rw [step_metaExplicit prevStatus d s rest hd hs1 hs2] at h
      rcases metaDispatch_shape s d rest _ h with hx | ⟨r3, hx⟩ | ⟨r3, es2, ns2, hx, _⟩
      · cases hx
      · cases hx
        rfl
      · cases hx
  · intro prevStatus d c rest hd hc hp1 hp2
    exact step_metaFamily prevStatus d c rest hd hc hp1 hp2

/-- Witness for C10: an explicit `0xF3` event leaves running status
`0xF3`. -/
theorem metaFamily_updates_prevStatus_witness :
    (0 : Nat) < 0x80 ∧ (0xF0 : Nat) ≤ 0xF3 ∧ (0xF3 : Nat) ≤ 0xFF ∧ (243 : Nat) = 0xF3 :=
  ⟨by decide, by decide, by decide,
    (metaFamily_updates_prevStatus.1 0x90 0 0xF3 [] 243 []
      [.statusByteErrorE 0xF3] [] (by decide) (by decide) (by decide)).1 (by decide)⟩
